import Mathlib

/-!
Verification of the Coral-Protocol/Coral-Interface-Agent repository.

Shallow embedding of the bespoke logic of the three Python source files:
  - `src/utils/coral_config.py` : `parse_mentions_response`, `mcp_resources_details`
  - `src/main.py`               : `load_config`, `get_tools_description`,
                                  `ask_human_tool`, the unbounded agent run loop
  - `src/0-langchain-interface.py` : the bounded connection-retry loop

External library behaviour (the `xml.etree.ElementTree` string parser, the
MCP client, the language model) is modelled by explicit parameters or by the
observable outcome of each call (`Except`); everything the repository itself
computes is translated directly from the source.
-/

namespace CoralInterface

/-! ## XML data model

`xml.etree.ElementTree` elements, as far as `parse_mentions_response` observes
them: a tag, an attribute dictionary, and a list of child elements. -/

/-- An XML element: tag name, attributes, children (document order). -/
inductive XmlElem where
  | mk (tag : String) (attrs : List (String × String)) (children : List XmlElem)

/-- Tag of an element. -/
def XmlElem.tag : XmlElem → String
  | .mk t _ _ => t

/-- Attribute list of an element. -/
def XmlElem.attrs : XmlElem → List (String × String)
  | .mk _ a _ => a

/-- Children of an element. -/
def XmlElem.children : XmlElem → List XmlElem
  | .mk _ _ c => c

/-- `element.get(key)`: attribute lookup, `None` when absent. -/
def XmlElem.get (e : XmlElem) (key : String) : Option String :=
  e.attrs.lookup key

mutual

/-- All elements of the subtree rooted at `e` (including `e` itself) whose tag
is `t`, in document order; the subtree part of `findall(".//t")`. -/
def subtreeFind (t : String) : XmlElem → List XmlElem
  | .mk tag attrs children =>
    (if tag = t then [XmlElem.mk tag attrs children] else []) ++
      subtreeFindList t children

/-- `subtreeFind` mapped over a list of sibling elements, keeping order. -/
def subtreeFindList (t : String) : List XmlElem → List XmlElem
  | [] => []
  | e :: es => subtreeFind t e ++ subtreeFindList t es

end

/-- `root.findall(".//t")`: every element strictly below `root` with tag `t`,
in document order (ElementTree's `.//` matches descendants, not `root`). -/
def findall (t : String) (root : XmlElem) : List XmlElem :=
  subtreeFindList t root.children

/-- The dictionary built for one `ResolvedMessage` element: the three
attribute lookups, each possibly `None`. -/
structure MsgDict where
  threadId : Option String
  senderId : Option String
  content : Option String
deriving DecidableEq

/-- The dictionary `{"threadId": msg.get(...), "senderId": ..., "content": ...}`. -/
def msgDict (msg : XmlElem) : MsgDict :=
  { threadId := msg.get "threadId"
    senderId := msg.get "senderId"
    content := msg.get "content" }

/-- Python truthiness of one dictionary value: not `None` and not `""`. -/
def truthyOpt : Option String → Bool
  | none => false
  | some s => s ≠ ""

/-- `all(message.values())`: every one of the three values is truthy. -/
def MsgDict.allTruthy (m : MsgDict) : Bool :=
  truthyOpt m.threadId && truthyOpt m.senderId && truthyOpt m.content

/-- The body of `parse_mentions_response` once a root element is in hand:
walk `root.findall(".//ResolvedMessage")`, appending each message dictionary
whose three values are all truthy. -/
def parseMentionsTree (root : XmlElem) : List MsgDict :=
  (findall "ResolvedMessage" root).foldl
    (fun messages msg =>
      if (msgDict msg).allTruthy then messages ++ [msgDict msg] else messages)
    []

/-- A Python value handed to `parse_mentions_response`: `None`, a string, or
some non-string object. -/
inductive PyInput where
  | none
  | str (s : String)
  | other
deriving DecidableEq

/-- `parse_mentions_response(response)` from `src/utils/coral_config.py`.
`fromstring` models `ET.fromstring`: it either returns a root element or
raises `ParseError` (`Except.error`).  The guard
`if not response or not isinstance(response, str)` returns `[]` for `None`,
non-strings and `""`; a `ParseError` is caught and yields `[]`. -/
def parse_mentions_response (fromstring : String → Except Unit XmlElem) :
    PyInput → List MsgDict
  | .none => []
  | .other => []
  | .str s =>
    if s = "" then []
    else
      match fromstring s with
      | .error _ => []
      | .ok root => parseMentionsTree root

/-! ## Descendant relation on XML trees (for depth claims) -/

/-- `Desc c e`: `c` is a proper descendant of `e` (a child, or a descendant of
a child). -/
inductive Desc : XmlElem → XmlElem → Prop where
  | child {c e : XmlElem} : c ∈ e.children → Desc c e
  | step {c m e : XmlElem} : Desc c m → m ∈ e.children → Desc c e

/-! ## Tools description and brace escaping (`get_tools_description`) -/

/-- The opening-brace character. -/
def lbrace : Char := Char.ofNat 123

/-- The closing-brace character. -/
def rbrace : Char := Char.ofNat 125

/-- Python `str.replace(c, r)` for a single-character pattern `c`: every
occurrence of `c` becomes the segment `r`. -/
def replaceChar (c : Char) (r : List Char) : List Char → List Char
  | [] => []
  | x :: xs => (if x = c then r else [x]) ++ replaceChar c r xs

/-- `.replace('\x7b', '\x7b\x7b').replace('\x7d', '\x7d\x7d')` applied to the
JSON-serialized schema string. -/
def escapeBraces (s : String) : String :=
  String.mk (replaceChar rbrace [rbrace, rbrace]
    (replaceChar lbrace [lbrace, lbrace] s.data))

/-- A tool as `get_tools_description` observes it: its name and the
JSON-serialized argument schema `json.dumps(tool.args)`. -/
structure ToolDesc where
  name : String
  argsJson : String
deriving DecidableEq

/-- One line of the tools description:
`f"Tool: \x7btool.name\x7d, Schema: \x7bjson.dumps(tool.args)...\x7d"`. -/
def toolLine (t : ToolDesc) : String :=
  "Tool: " ++ t.name ++ ", Schema: " ++ escapeBraces t.argsJson

/-- `get_tools_description(tools)` from `src/main.py` (identical in
`src/0-langchain-interface.py`): the per-tool lines joined by newlines. -/
def get_tools_description (tools : List ToolDesc) : String :=
  String.intercalate "\n" (tools.map toolLine)

/-- Spec-side interpreter of template text: reads a brace-escaped character
stream, turning each doubled brace into a literal brace and failing (`none`)
on any single, unescaped brace — the way a templating step treats a lone
brace as a placeholder delimiter rather than literal text. -/
def renderBraces : List Char → Option (List Char)
  | [] => some []
  | [x] =>
    if x = lbrace || x = rbrace then none else some [x]
  | x :: y :: rest =>
    if x = lbrace then
      if y = lbrace then (renderBraces rest).map (fun l => lbrace :: l) else none
    else if x = rbrace then
      if y = rbrace then (renderBraces rest).map (fun l => rbrace :: l) else none
    else (renderBraces (y :: rest)).map (fun l => x :: l)

/-! ## The bounded connection-retry loop (`src/0-langchain-interface.py`) -/

deriving instance DecidableEq for Except

/-- `max_retries = 5` in `main()`. -/
def max_retries : Nat := 5

/-- `retry_delay = 5` seconds in `main()`. -/
def retry_delay : Nat := 5

/-- Observable outcome of the retry loop: whether `main()` returned normally
or propagated an exception, how many times the loop body ran, and the
sequence of sleep durations performed between attempts. -/
structure RetryResult where
  outcome : Except String Unit
  attempts : Nat
  sleeps : List Nat
deriving DecidableEq

/-- The `for attempt in range(max_retries)` loop of `main()`, iterating over
the remaining attempt indices.  `body attempt` models the whole try block
(client construction, tool fetch, agent creation and invocation): `.ok` if
it completes, `.error` if it raises.  On an exception the code sleeps
`retry_delay` and continues while `attempt < max_retries - 1`, and re-raises
on the last attempt; on a body that completes, the `for` loop simply
proceeds to its next iteration, and falling off the end of the loop returns
normally. -/
def retryFor (body : Nat → Except String Unit) :
    List Nat → Nat → List Nat → RetryResult
  | [], attemptsMade, sleeps => ⟨.ok (), attemptsMade, sleeps⟩
  | attempt :: rest, attemptsMade, sleeps =>
    match body attempt with
    | .ok () => retryFor body rest (attemptsMade + 1) sleeps
    | .error e =>
      if attempt < max_retries - 1 then
        retryFor body rest (attemptsMade + 1) (sleeps ++ [retry_delay])
      else
        ⟨.error e, attemptsMade + 1, sleeps⟩

/-- `main()` of `src/0-langchain-interface.py`: the retry loop over
`range(max_retries)`. -/
def interfaceMain (body : Nat → Except String Unit) : RetryResult :=
  retryFor body (List.range max_retries) 0 []

/-! ## The unbounded run loop (`src/main.py`) -/

/-- `await asyncio.sleep(1)` on the success path of the loop. -/
def success_sleep : Nat := 1

/-- `await asyncio.sleep(5)` in the `except` branch of the loop. -/
def error_backoff : Nat := 5

/-- Observable state of the `while True` loop in `main()`:
`iteration_count`, the sleeps performed so far, and the errors logged by the
`except` branch. -/
structure LoopState where
  iteration : Nat
  sleeps : List Nat
  errorsLogged : List String
deriving DecidableEq

/-- Result of one pass through a Python loop body: continue with a new state,
or leave the loop (`exit`, carrying a propagated exception if any).  The
`while True` body below can in principle only produce `next`. -/
inductive StepOut where
  | next (s : LoopState)
  | exit (err : Option String)
deriving DecidableEq

/-- One iteration of the `while True` loop of `main()` in `src/main.py`:
increment `iteration_count`; invoke the agent (`invoke` models
`agent_executor.ainvoke`); on completion sleep 1 second; on any exception
log the error and traceback and sleep 5 seconds.  Both branches fall through
to the next iteration. -/
def loopBody (invoke : Except String Unit) (s : LoopState) : StepOut :=
  let s1 : LoopState := { s with iteration := s.iteration + 1 }
  match invoke with
  | .ok () => .next { s1 with sleeps := s1.sleeps ++ [success_sleep] }
  | .error e =>
    .next { s1 with sleeps := s1.sleeps ++ [error_backoff],
                    errorsLogged := s1.errorsLogged ++ [e] }

/-- The loop of `src/main.py` after `n` iterations, where `invokes k` is the
outcome of the `k`-th agent invocation. -/
def runLoop (invokes : Nat → Except String Unit) : Nat → StepOut
  | 0 => .next ⟨0, [], []⟩
  | n + 1 =>
    match runLoop invokes n with
    | .next s => loopBody (invokes n) s
    | .exit e => .exit e

/-! ## Configuration loading (`load_config` in `src/main.py`) -/

/-- Value of a list of decimal digit characters, `none` if empty or any
character is not a digit. -/
def digitsToNat? (l : List Char) : Option Nat :=
  if l ≠ [] && l.all Char.isDigit then
    some (l.foldl (fun n c => 10 * n + (c.toNat - 48)) 0)
  else
    none

/-- Model of Python `int(str)` on plain decimal literals: an optional sign
followed by digits.  (Underscores, surrounding whitespace and other bases
are outside the inputs exercised here; on those Python raises, i.e. `none`.) -/
def pyInt? (s : String) : Option Int :=
  match s.data with
  | '-' :: rest => (digitsToNat? rest).map (fun n => -(n : Int))
  | '+' :: rest => (digitsToNat? rest).map (fun n => (n : Int))
  | l => (digitsToNat? l).map (fun n => (n : Int))

/-- Split a character list at every `'.'` (like `str.split(".")`). -/
def splitDot : List Char → List (List Char)
  | [] => [[]]
  | c :: rest =>
    match splitDot rest with
    | [] => [[c]]
    | part :: parts =>
      if c = '.' then [] :: part :: parts else (c :: part) :: parts

/-- Unsigned part of `pyFloat?`: digits with an optional fractional part
(`"1"`, `"1.5"`, `"1."`, `".5"`). -/
def pyFloatCore? (s : String) : Option Rat :=
  match splitDot s.data with
  | [intPart] => (digitsToNat? intPart).map (fun n => (n : Rat))
  | [intPart, fracPart] =>
    if intPart = [] && fracPart = [] then none
    else
      let ip : Option Nat :=
        if intPart = [] then some 0 else digitsToNat? intPart
      let fp : Option (Nat × Nat) :=
        if fracPart = [] then some (0, 0)
        else (digitsToNat? fracPart).map (fun n => (n, fracPart.length))
      match ip, fp with
      | some i, some (f, k) => some ((i : Rat) + (f : Rat) / ((10 : Rat) ^ k))
      | _, _ => none
  | _ => none

/-- Model of Python `float(str)` on plain decimal literals with an optional
sign.  (Scientific notation, `inf`/`nan`, underscores and surrounding
whitespace are outside the inputs exercised here; on a non-numeric string
Python raises `ValueError`, i.e. `none`.) -/
def pyFloat? (s : String) : Option Rat :=
  match s.data with
  | '-' :: rest => (pyFloatCore? (String.mk rest)).map (fun q => -q)
  | '+' :: rest => pyFloatCore? (String.mk rest)
  | _ => pyFloatCore? s

/-- The configuration dictionary built by `load_config`. -/
structure Config where
  runtime : String
  coral_sse_url : Option String
  agent_id : Option String
  model_name : Option String
  model_provider : Option String
  api_key : Option String
  model_temperature : Rat
  model_token : Int
  base_url : Option String
deriving DecidableEq

/-- The names of the required configuration fields, in the order
`required_fields` lists them. -/
def required_fields : List String :=
  ["coral_sse_url", "agent_id", "model_name", "model_provider", "api_key"]

/-- The required (name, value) pairs of a configuration. -/
def Config.requiredPairs (c : Config) : List (String × Option String) :=
  [("coral_sse_url", c.coral_sse_url), ("agent_id", c.agent_id),
   ("model_name", c.model_name), ("model_provider", c.model_provider),
   ("api_key", c.api_key)]

/-- `float(os.getenv("MODEL_TEMPERATURE", 0.7))`: the default `0.7` when the
variable is unset, otherwise the conversion, which raises `ValueError` on a
malformed string. -/
def tempValue (env : String → Option String) : Except String Rat :=
  match env "MODEL_TEMPERATURE" with
  | none => .ok ((7 : Rat) / 10)
  | some s =>
    match pyFloat? s with
    | some q => .ok q
    | none => .error ("could not convert string to float: " ++ s)

/-- `int(os.getenv("MODEL_TOKEN", 2048))`: the default `2048` when the
variable is unset, otherwise the conversion, which raises `ValueError` on a
malformed string. -/
def tokenValue (env : String → Option String) : Except String Int :=
  match env "MODEL_TOKEN" with
  | none => .ok 2048
  | some s =>
    match pyInt? s with
    | some n => .ok n
    | none => .error ("invalid literal for int() with base 10: " ++ s)

/-- The `config` dictionary literal of `load_config`, given the two
successfully converted numeric values. -/
def configOf (env : String → Option String) (temp : Rat) (tok : Int) : Config :=
  { runtime := (env "CORAL_ORCHESTRATION_RUNTIME").getD "devmode"
    coral_sse_url := env "CORAL_SSE_URL"
    agent_id := env "CORAL_AGENT_ID"
    model_name := env "MODEL_NAME"
    model_provider := env "MODEL_PROVIDER"
    api_key := env "API_KEY"
    model_temperature := temp
    model_token := tok
    base_url := env "BASE_URL" }

/-- `missing = [field for field in required_fields if not config[field]]`:
the names of the required fields whose values are Python-falsy (`None` or
`""`). -/
def missingRequired (c : Config) : List String :=
  (c.requiredPairs.filter (fun p => !truthyOpt p.2)).map Prod.fst

/-- The message of the `ValueError` raised for missing required fields. -/
def missingMessage (missing : List String) : String :=
  "Missing required environment variables: " ++ String.intercalate ", " missing

/-- `load_config()` from `src/main.py` over an environment
`env : name ↦ value`.  Building the config dictionary evaluates
`float(os.getenv("MODEL_TEMPERATURE", 0.7))` and then
`int(os.getenv("MODEL_TOKEN", 2048))`, each of which can raise `ValueError`;
afterwards the required fields are checked and a `ValueError` naming the
missing fields is raised when any is falsy. -/
def load_config (env : String → Option String) : Except String Config :=
  match tempValue env, tokenValue env with
  | .error e, _ => .error e
  | .ok _, .error e => .error e
  | .ok temp, .ok tok =>
    let config := configOf env temp tok
    if missingRequired config = [] then
      .ok config
    else
      .error (missingMessage (missingRequired config))

/-! ## Diagnostic resource mapper (`mcp_resources_details`) -/

/-- One diagnostic record: either
`\x7b"resource": i, "details": \x7b"data": d\x7d, "status": "success"\x7d` or
`\x7b"resource": i, "error": e, "status": "failed"\x7d`. -/
inductive ResRecord where
  | success (index : Nat) (data : Option String)
  | failed (index : Nat) (error : String)
deriving DecidableEq

/-- The record appended for the `i`-th item: the `try` block packages the
extracted `data` into a success record, the `except` block packages the
error text into a failed record. -/
def resRecordOf (i : Nat) : Except String (Option String) → ResRecord
  | .ok d => .success i d
  | .error e => .failed i e

/-- The `for i, resource in enumerate(resources, 1)` loop: each item is
modelled by the outcome of extracting its `data` attribute — `.ok d` when
`getattr(resource, "data", None)` returns `d`, `.error e` when the
extraction raises with message `e`; each outcome becomes one appended
record. -/
def resourcesGo (i : Nat) : List (Except String (Option String)) → List ResRecord
  | [] => []
  | r :: rs => resRecordOf i r :: resourcesGo (i + 1) rs

/-- `mcp_resources_details(resources)` from `src/utils/coral_config.py`. -/
def mcp_resources_details (resources : List (Except String (Option String))) :
    List ResRecord :=
  resourcesGo 1 resources

/-! ## Interactive ask-human tool (`ask_human_tool` in `src/main.py`) -/

/-- The whitespace characters stripped by Python `str.strip()` on ASCII
input: space, tab, newline, carriage return, vertical tab, form feed. -/
def pyIsSpace (c : Char) : Bool :=
  c = ' ' || c = '\t' || c = '\n' || c = '\r' ||
    c = Char.ofNat 11 || c = Char.ofNat 12

/-- Python `str.strip()`: drop whitespace from both ends. -/
def pyStrip (s : String) : String :=
  String.mk (((s.data.dropWhile pyIsSpace).reverse.dropWhile pyIsSpace).reverse)

/-- `ask_human_tool(question)` from `src/main.py`, as a function of the line
read from standard input: strip it; if the stripped response is falsy
(empty), substitute `"No response provided"`. -/
def ask_human_tool (line : String) : String :=
  let response := pyStrip line
  if response = "" then "No response provided" else response

/-! ## Concrete example data used by the witnesses -/

/-- A well-formed `ResolvedMessage` element. -/
def exMsg1 : XmlElem :=
  .mk "ResolvedMessage"
    [("threadId", "t1"), ("senderId", "a1"), ("content", "hi")] []

/-- A second well-formed `ResolvedMessage` element, nested deeper. -/
def exMsg2 : XmlElem :=
  .mk "ResolvedMessage"
    [("threadId", "t2"), ("senderId", "a2"), ("content", "yo")] []

/-- A malformed `ResolvedMessage` element: no `content` attribute. -/
def exBad : XmlElem :=
  .mk "ResolvedMessage" [("threadId", "t3"), ("senderId", "a3")] []

/-- An example payload tree: two well-formed messages (one nested inside a
wrapper element) and one malformed message. -/
def exTree : XmlElem :=
  .mk "root" [] [exMsg1, .mk "wrap" [] [exMsg2], exBad]

/-- An `ET.fromstring` model that parses every string to `exTree`. -/
def exFromstring : String → Except Unit XmlElem := fun _ => .ok exTree

/-- An `ET.fromstring` model that always raises `ParseError`. -/
def exBadParse : String → Except Unit XmlElem := fun _ => .error ()

/-- Inner wrapper element holding a well-formed message. -/
def exInner : XmlElem := .mk "inner" [] [exMsg2]

/-- Outer wrapper element holding the inner wrapper. -/
def exOuter : XmlElem := .mk "outer" [] [exInner]

/-- A deeply nested payload: a well-formed message two wrappers down. -/
def exDeepTree : XmlElem := .mk "root" [] [exOuter]

/-- An `ET.fromstring` model that parses every string to `exDeepTree`. -/
def exDeepFromstring : String → Except Unit XmlElem := fun _ => .ok exDeepTree

/-! ## Helper lemmas -/

theorem foldl_append_filter {α β : Type} (p : α → Bool) (f : α → β)
    (l : List α) (init : List β) :
    l.foldl (fun acc x => if p x then acc ++ [f x] else acc) init =
      init ++ (l.filter p).map f := by
  induction l generalizing init with
  | nil => simp
  | cons x xs ih =>
    by_cases h : p x <;>
      simp [List.foldl_cons, h, ih, List.filter_cons]

theorem length_filter_not {α : Type} (p : α → Bool) (l : List α) :
    (l.filter p).length + (l.filter (fun a => !p a)).length = l.length := by
  induction l with
  | nil => rfl
  | cons a as ih =>
    by_cases h : p a <;> simp [List.filter_cons, h] <;> omega

/-- The append-in-a-loop body of `parse_mentions_response` is the filter of
the found elements by the all-attributes-truthy test, mapped to their
dictionaries, in document order. -/
theorem parseMentionsTree_eq (root : XmlElem) :
    parseMentionsTree root =
      ((findall "ResolvedMessage" root).filter
        (fun m => (msgDict m).allTruthy)).map msgDict := by
  simpa [parseMentionsTree] using
    foldl_append_filter (fun m => (msgDict m).allTruthy) msgDict
      (findall "ResolvedMessage" root) []

theorem self_mem_subtreeFind {t : String} {e : XmlElem} (h : e.tag = t) :
    e ∈ subtreeFind t e := by
  cases e with
  | mk tag attrs children =>
    simp only [XmlElem.tag] at h
    simp [subtreeFind, h]

theorem mem_subtreeFindList_of_mem {t : String} {x e : XmlElem}
    {es : List XmlElem} (he : e ∈ es) (hx : x ∈ subtreeFind t e) :
    x ∈ subtreeFindList t es := by
  induction es with
  | nil => cases he
  | cons a as ih =>
    rcases List.mem_cons.mp he with rfl | he
    · exact List.mem_append_left _ hx
    · exact List.mem_append_right _ (ih he)

theorem mem_subtreeFind_of_childList {t : String} {x e : XmlElem}
    (h : x ∈ subtreeFindList t e.children) : x ∈ subtreeFind t e := by
  cases e with
  | mk tag attrs children =>
    simp only [XmlElem.children] at h
    simp only [subtreeFind]
    exact List.mem_append_right _ h

/-- Every proper descendant of `root` whose tag is `t` is found by
`root.findall(".//t")`. -/
theorem desc_mem_findall {t : String} {x root : XmlElem}
    (hd : Desc x root) (ht : x.tag = t) : x ∈ findall t root := by
  induction hd with
  | child h => exact mem_subtreeFindList_of_mem h (self_mem_subtreeFind ht)
  | step d hm ih =>
    exact mem_subtreeFindList_of_mem hm (mem_subtreeFind_of_childList ih)

/-! ## Claims C1, C2, C9: the mentions parser -/

/-- C1: for a well-formed payload whose tree contains `N` well-formed
`ResolvedMessage` elements (all three of `threadId`, `senderId`, `content`
present and non-empty) out of `N + M` `ResolvedMessage` elements in total,
`parse_mentions_response` returns exactly the `N` well-formed records as
`(threadId, senderId, content)` dictionaries in document order, the `M`
malformed elements excluded. -/
theorem parse_mentions_response_keeps_wellformed
    (fromstring : String → Except Unit XmlElem) (s : String)
    (root : XmlElem) (N M : Nat)
    (hs : s ≠ "") (hroot : fromstring s = .ok root)
    (hN : ((findall "ResolvedMessage" root).filter
      (fun m => (msgDict m).allTruthy)).length = N)
    (hNM : (findall "ResolvedMessage" root).length = N + M) :
    parse_mentions_response fromstring (.str s) =
      ((findall "ResolvedMessage" root).filter
        (fun m => (msgDict m).allTruthy)).map msgDict ∧
    (parse_mentions_response fromstring (.str s)).length = N ∧
    ((findall "ResolvedMessage" root).filter
      (fun m => !(msgDict m).allTruthy)).length = M := by
  have hp : parse_mentions_response fromstring (.str s) =
      parseMentionsTree root := by
    simp [parse_mentions_response, hs, hroot]
  have hsplit := length_filter_not (fun m => (msgDict m).allTruthy)
    (findall "ResolvedMessage" root)
  rw [hp, parseMentionsTree_eq]
  exact ⟨rfl, by rw [List.length_map, hN], by omega⟩

/-- C1 witness: the example payload has two well-formed messages and one
malformed one; the parser keeps exactly the two, in document order. -/
theorem parse_mentions_response_keeps_wellformed_witness :
    ("<payload>" ≠ "" ∧ exFromstring "<payload>" = .ok exTree ∧
     ((findall "ResolvedMessage" exTree).filter
       (fun m => (msgDict m).allTruthy)).length = 2 ∧
     (findall "ResolvedMessage" exTree).length = 2 + 1) ∧
    (parse_mentions_response exFromstring (.str "<payload>") =
      ((findall "ResolvedMessage" exTree).filter
        (fun m => (msgDict m).allTruthy)).map msgDict ∧
     (parse_mentions_response exFromstring (.str "<payload>")).length = 2 ∧
     ((findall "ResolvedMessage" exTree).filter
       (fun m => !(msgDict m).allTruthy)).length = 1) :=
  ⟨⟨by decide, rfl, by decide, by decide⟩,
   parse_mentions_response_keeps_wellformed exFromstring "<payload>" exTree 2 1
     (by decide) rfl (by decide) (by decide)⟩

/-- C2: `parse_mentions_response` absorbs every bad input: `None`,
a non-string object, the empty string, and any string on which the XML
parser raises all yield the empty list (and the embedding is a total
function, so no exception escapes). -/
theorem parse_mentions_response_total_empty
    (fromstring : String → Except Unit XmlElem) :
    parse_mentions_response fromstring .none = [] ∧
    parse_mentions_response fromstring .other = [] ∧
    parse_mentions_response fromstring (.str "") = [] ∧
    ∀ s : String, fromstring s = .error () →
      parse_mentions_response fromstring (.str s) = [] := by
  refine ⟨rfl, rfl, rfl, ?_⟩
  intro s hs
  by_cases h : s = "" <;> simp [parse_mentions_response, h, hs]

/-- C2 witness: with a parser model that always raises, the malformed
payload `"<oops"` yields `[]`, as do `None`, a non-string and `""`. -/
theorem parse_mentions_response_total_empty_witness :
    (parse_mentions_response exBadParse .none = [] ∧
     parse_mentions_response exBadParse .other = [] ∧
     parse_mentions_response exBadParse (.str "") = []) ∧
    exBadParse "<oops" = .error () ∧
    parse_mentions_response exBadParse (.str "<oops") = [] := by
  have h := parse_mentions_response_total_empty exBadParse
  exact ⟨⟨h.1, h.2.1, h.2.2.1⟩, rfl, h.2.2.2 "<oops" rfl⟩

/-- C9: `.//ResolvedMessage` matches at every depth: any well-formed
`ResolvedMessage` element that is a proper descendant of the parsed root —
however deeply nested inside other elements — contributes its record to the
result. -/
theorem parse_mentions_response_any_depth
    (fromstring : String → Except Unit XmlElem) (s : String)
    (root x : XmlElem)
    (hs : s ≠ "") (hroot : fromstring s = .ok root)
    (hdesc : Desc x root) (htag : x.tag = "ResolvedMessage")
    (hwf : (msgDict x).allTruthy = true) :
    msgDict x ∈ parse_mentions_response fromstring (.str s) := by
  have hp : parse_mentions_response fromstring (.str s) =
      parseMentionsTree root := by
    simp [parse_mentions_response, hs, hroot]
  rw [hp, parseMentionsTree_eq]
  exact List.mem_map_of_mem _
    (List.mem_filter.mpr ⟨desc_mem_findall hdesc htag, hwf⟩)

/-- C9 witness: a well-formed message nested two wrapper elements below the
root still appears in the parsed result. -/
theorem parse_mentions_response_any_depth_witness :
    ("<payload>" ≠ "" ∧ exDeepFromstring "<payload>" = .ok exDeepTree ∧
     Desc exMsg2 exDeepTree ∧ exMsg2.tag = "ResolvedMessage" ∧
     (msgDict exMsg2).allTruthy = true) ∧
    msgDict exMsg2 ∈ parse_mentions_response exDeepFromstring (.str "<payload>") := by
  have h1 : Desc exMsg2 exInner :=
    Desc.child (by simp [exInner, XmlElem.children])
  have h2 : Desc exMsg2 exOuter :=
    Desc.step h1 (by simp [exOuter, XmlElem.children])
  have hdesc : Desc exMsg2 exDeepTree :=
    Desc.step h2 (by simp [exDeepTree, XmlElem.children])
  exact ⟨⟨by decide, rfl, hdesc, by decide, by decide⟩,
    parse_mentions_response_any_depth exDeepFromstring "<payload>" exDeepTree
      exMsg2 (by decide) rfl hdesc (by decide) (by decide)⟩

/-! ## Claim C7: the diagnostic resource mapper -/

theorem resourcesGo_length (i : Nat) (rs : List (Except String (Option String))) :
    (resourcesGo i rs).length = rs.length := by
  induction rs generalizing i with
  | nil => rfl
  | cons a as ih => simp [resourcesGo, ih]

theorem resourcesGo_get? (rs : List (Except String (Option String)))
    (i j : Nat) :
    (resourcesGo i rs)[j]? = (rs[j]?).map (resRecordOf (i + j)) := by
  induction rs generalizing i j with
  | nil => simp [resourcesGo]
  | cons a as ih =>
    cases j with
    | zero => simp [resourcesGo]
    | succ j =>
      have h : i + (j + 1) = (i + 1) + j := by omega
      simp [resourcesGo, ih (i + 1) j, h]

/-- C7: given `N` items where extraction of item `k` (0-based) raises with
message `e` and every other item's extraction returns, the mapper returns
exactly `N` records; record `k` is `status="failed"` carrying `e`, and every
other record is `status="success"`.  No single item's exception aborts the
batch: the embedding is total and the result always has one record per
item. -/
theorem mcp_resources_details_per_item
    (resources : List (Except String (Option String))) (k : Nat) (e : String)
    (hfail : resources[k]? = some (.error e))
    (hsucc : ∀ j r, j ≠ k → resources[j]? = some r → ∃ d, r = .ok d) :
    (mcp_resources_details resources).length = resources.length ∧
    (mcp_resources_details resources)[k]? = some (.failed (k + 1) e) ∧
    ∀ j rec, j ≠ k → (mcp_resources_details resources)[j]? = some rec →
      ∃ d, rec = .success (j + 1) d := by
  refine ⟨resourcesGo_length 1 resources, ?_, ?_⟩
  · rw [mcp_resources_details, resourcesGo_get?, hfail]
    have h : 1 + k = k + 1 := by omega
    simp [resRecordOf, h]
  · intro j rec hj hrec
    rw [mcp_resources_details, resourcesGo_get?] at hrec
    cases hr : resources[j]? with
    | none => rw [hr] at hrec; simp at hrec
    | some r =>
      rw [hr] at hrec
      obtain ⟨d, rfl⟩ := hsucc j r hj hr
      have h : 1 + j = j + 1 := by omega
      simp [resRecordOf, h] at hrec
      exact ⟨d, hrec.symm⟩

/-- Example resource batch: extraction succeeds on items 1 and 3 and raises
on item 2. -/
def exResources : List (Except String (Option String)) :=
  [.ok (some "r1"), .error "bad", .ok none]

/-- C7 witness: on the example batch the mapper returns three records, the
second failed with the error text, the others successful. -/
theorem mcp_resources_details_per_item_witness :
    exResources[1]? = some (.error "bad") ∧
    (mcp_resources_details exResources).length = exResources.length ∧
    (mcp_resources_details exResources)[1]? = some (.failed 2 "bad") ∧
    ∀ j rec, j ≠ 1 → (mcp_resources_details exResources)[j]? = some rec →
      ∃ d, rec = .success (j + 1) d := by
  have hsucc : ∀ j r, j ≠ 1 → exResources[j]? = some r → ∃ d, r = .ok d := by
    intro j r hj hr
    rcases j with _ | _ | _ | j
    · simp [exResources] at hr
      exact ⟨some "r1", hr.symm⟩
    · exact absurd rfl hj
    · simp [exResources] at hr
      exact ⟨none, hr.symm⟩
    · simp [exResources] at hr
  have h := mcp_resources_details_per_item exResources 1 "bad" (by decide) hsucc
  exact ⟨by decide, h.1, h.2.1, h.2.2⟩

/-! ## Claim C8: brace escaping in the tools description -/

theorem lbrace_ne_rbrace : lbrace ≠ rbrace := by decide

theorem renderBraces_cons_ord (c : Char) (rest : List Char)
    (h1 : c ≠ lbrace) (h2 : c ≠ rbrace) :
    renderBraces (c :: rest) = (renderBraces rest).map (fun l => c :: l) := by
  cases rest <;> simp [renderBraces, h1, h2]

theorem renderBraces_cons_lb (rest : List Char) :
    renderBraces (lbrace :: lbrace :: rest) =
      (renderBraces rest).map (fun l => lbrace :: l) := by
  simp [renderBraces]

theorem renderBraces_cons_rb (rest : List Char) :
    renderBraces (rbrace :: rbrace :: rest) =
      (renderBraces rest).map (fun l => rbrace :: l) := by
  simp [renderBraces, lbrace_ne_rbrace.symm]

/-- Round trip: the doubled-brace escape applied by `get_tools_description`
renders back to the original schema text, so every brace in the escaped text
sits in an adjacent escaped pair and no single unescaped brace remains. -/
theorem renderBraces_escape (l : List Char) :
    renderBraces (replaceChar rbrace [rbrace, rbrace]
      (replaceChar lbrace [lbrace, lbrace] l)) = some l := by
  induction l with
  | nil => rfl
  | cons c cs ih =>
    by_cases h1 : c = lbrace
    · subst h1
      have hstep : replaceChar rbrace [rbrace, rbrace]
          (replaceChar lbrace [lbrace, lbrace] (lbrace :: cs)) =
          lbrace :: lbrace :: replaceChar rbrace [rbrace, rbrace]
            (replaceChar lbrace [lbrace, lbrace] cs) := by
        simp [replaceChar, lbrace_ne_rbrace]
      rw [hstep, renderBraces_cons_lb, ih]
      rfl
    · by_cases h2 : c = rbrace
      · subst h2
        have hstep : replaceChar rbrace [rbrace, rbrace]
            (replaceChar lbrace [lbrace, lbrace] (rbrace :: cs)) =
            rbrace :: rbrace :: replaceChar rbrace [rbrace, rbrace]
              (replaceChar lbrace [lbrace, lbrace] cs) := by
          simp [replaceChar, Ne.symm lbrace_ne_rbrace]
        rw [hstep, renderBraces_cons_rb, ih]
        rfl
      · have hstep : replaceChar rbrace [rbrace, rbrace]
            (replaceChar lbrace [lbrace, lbrace] (c :: cs)) =
            c :: replaceChar rbrace [rbrace, rbrace]
              (replaceChar lbrace [lbrace, lbrace] cs) := by
          simp [replaceChar, h1, h2]
        rw [hstep, renderBraces_cons_ord c _ h1 h2, ih]
        rfl

/-- C8: the rendered tools description is the newline-join of the per-tool
lines, and in every line the schema part is brace-escaped: interpreting the
escaped schema text back (doubled braces as literal braces, failing on any
single unescaped brace) succeeds and recovers the serialized schema — so no
single unescaped brace originating from a schema survives, for any list of
tools. -/
theorem tools_description_braces_escaped (tools : List ToolDesc) :
    get_tools_description tools =
      String.intercalate "\n" (tools.map toolLine) ∧
    ∀ t, t ∈ tools →
      toolLine t = "Tool: " ++ t.name ++ ", Schema: " ++ escapeBraces t.argsJson ∧
      renderBraces (escapeBraces t.argsJson).data = some t.argsJson.data := by
  refine ⟨rfl, fun t _ => ⟨rfl, ?_⟩⟩
  exact renderBraces_escape t.argsJson.data

/-- An example tool whose JSON schema contains nested braces. -/
def exTool : ToolDesc :=
  { name := "create_thread"
    argsJson := "\x7b\"threadName\": \x7b\"type\": \"string\"\x7d\x7d" }

/-- C8 witness: on a concrete tool list the schema part of the description
renders back to the original schema text. -/
theorem tools_description_braces_escaped_witness :
    exTool ∈ [exTool] ∧
    get_tools_description [exTool] =
      String.intercalate "\n" ([exTool].map toolLine) ∧
    renderBraces (escapeBraces exTool.argsJson).data = some exTool.argsJson.data := by
  have h := tools_description_braces_escaped [exTool]
  exact ⟨by simp, h.1, (h.2 exTool (by simp)).2⟩

/-! ## Claim C10: the interactive ask-human tool never returns empty -/

/-- C10: `ask_human_tool` of `src/main.py` never returns the empty string:
the response is the input line stripped of surrounding whitespace, and when
the stripped input is empty the fixed string `"No response provided"` is
returned instead. -/
theorem ask_human_tool_nonempty (line : String) :
    ask_human_tool line ≠ "" ∧
    (pyStrip line ≠ "" → ask_human_tool line = pyStrip line) ∧
    (pyStrip line = "" → ask_human_tool line = "No response provided") := by
  unfold ask_human_tool
  by_cases h : pyStrip line = "" <;> simp [h]

/-- C10 witness: a whitespace-padded input is stripped, and a blank input
yields the fixed fallback string; neither result is empty. -/
theorem ask_human_tool_nonempty_witness :
    ask_human_tool "  hi there " = "hi there" ∧
    ask_human_tool "  hi there " ≠ "" := by
  have h := ask_human_tool_nonempty "  hi there "
  refine ⟨?_, h.1⟩
  have hs : pyStrip "  hi there " = "hi there" := by decide
  rw [h.2.1 (by decide), hs]

/-! ## Claim C3: the bounded connection-retry loop -/

theorem retryFor_all_ok (body : Nat → Except String Unit) :
    ∀ (l : List Nat) (m : Nat) (s : List Nat),
    (∀ i ∈ l, body i = .ok ()) →
    retryFor body l m s = ⟨.ok (), m + l.length, s⟩ := by
  intro l
  induction l with
  | nil => intro m s _; simp [retryFor]
  | cons a as ih =>
    intro m s h
    have ha : body a = .ok () := h a (List.mem_cons_self a as)
    simp only [retryFor, ha]
    rw [ih (m + 1) s (fun i hi => h i (List.mem_cons_of_mem a hi))]
    congr 1
    simp only [List.length_cons]
    omega

theorem retryFor_error_segment (body : Nat → Except String Unit)
    (l2 : List Nat) :
    ∀ (l1 : List Nat) (m : Nat) (s : List Nat),
    (∀ i ∈ l1, ∃ e, body i = .error e) →
    (∀ i ∈ l1, i < max_retries - 1) →
    retryFor body (l1 ++ l2) m s =
      retryFor body l2 (m + l1.length)
        (s ++ List.replicate l1.length retry_delay) := by
  intro l1
  induction l1 with
  | nil => intro m s _ _; simp
  | cons a as ih =>
    intro m s herr hlt
    obtain ⟨e, he⟩ := herr a (List.mem_cons_self a as)
    have hl : a < max_retries - 1 := hlt a (List.mem_cons_self a as)
    simp only [List.cons_append, retryFor, he, if_pos hl, List.append_eq]
    rw [ih (m + 1) (s ++ [retry_delay])
      (fun i hi => herr i (List.mem_cons_of_mem a hi))
      (fun i hi => hlt i (List.mem_cons_of_mem a hi))]
    congr 1
    · simp only [List.length_cons]
      omega
    · simp [List.append_assoc, List.replicate_succ]

theorem retryFor_last_error (body : Nat → Except String Unit) (j : Nat)
    (e : String) (l2 : List Nat) (m : Nat) (s : List Nat)
    (hb : body j = .error e) (hj : ¬ j < max_retries - 1) :
    retryFor body (j :: l2) m s = ⟨.error e, m + 1, s⟩ := by
  simp [retryFor, hb, hj]

/-- C3: the bounded-retry wrapper of `src/0-langchain-interface.py` wraps
connection establishment (the whole try block, connection included — not a
per-invocation retry): with a body that fails on the first `k` attempts
(`k < max_retries`) and succeeds from attempt `k+1` on, `main()` propagates
no error and has slept the fixed `retry_delay` once between consecutive
attempts, i.e. `k` times; with a body that always fails, it raises the last
error after exactly `max_retries` attempts. -/
theorem interface_retry_policy :
    (∀ (k : Nat) (body : Nat → Except String Unit) (errOf : Nat → String),
      k < max_retries →
      (∀ i, i < k → body i = .error (errOf i)) →
      (∀ i, k ≤ i → body i = .ok ()) →
      (interfaceMain body).outcome = .ok () ∧
        (interfaceMain body).sleeps = List.replicate k retry_delay) ∧
    (∀ (body : Nat → Except String Unit) (errOf : Nat → String),
      (∀ i, body i = .error (errOf i)) →
      (interfaceMain body).outcome = .error (errOf (max_retries - 1)) ∧
        (interfaceMain body).attempts = max_retries) := by
  constructor
  · intro k body errOf hk hfail hsucc
    have hk5 : k < 5 := by simpa [max_retries] using hk
    have h5 : (5 - k) + k = 5 := by omega
    have hsplit : List.range max_retries =
        List.range' 0 k ++ List.range' k (5 - k) := by
      show List.range 5 = _
      rw [List.range_eq_range', ← h5, ← List.range'_append_1 0 k (5 - k)]
      simp
    have herr : ∀ i ∈ List.range' 0 k, ∃ e, body i = .error e := by
      intro i hi
      obtain ⟨j, hj, rfl⟩ := List.mem_range'.mp hi
      exact ⟨errOf _, hfail _ (by omega)⟩
    have hlt : ∀ i ∈ List.range' 0 k, i < max_retries - 1 := by
      intro i hi
      obtain ⟨j, hj, rfl⟩ := List.mem_range'.mp hi
      show 0 + 1 * j < 5 - 1
      omega
    have hok : ∀ i ∈ List.range' k (5 - k), body i = .ok () := by
      intro i hi
      obtain ⟨j, hj, rfl⟩ := List.mem_range'.mp hi
      exact hsucc _ (by omega)
    show (retryFor body (List.range max_retries) 0 []).outcome = .ok () ∧
      (retryFor body (List.range max_retries) 0 []).sleeps =
        List.replicate k retry_delay
    rw [hsplit, retryFor_error_segment body _ _ 0 [] herr hlt,
      retryFor_all_ok body _ _ _ hok]
    simp [List.length_range']
  · intro body errOf hfail
    have hsplit : List.range max_retries = List.range' 0 4 ++ [4] := by
      show List.range 5 = _
      rw [List.range_eq_range']
      simpa using List.range'_1_concat 0 4
    have herr : ∀ i ∈ List.range' 0 4, ∃ e, body i = .error e :=
      fun i _ => ⟨errOf i, hfail i⟩
    have hlt : ∀ i ∈ List.range' 0 4, i < max_retries - 1 := by
      intro i hi
      obtain ⟨j, hj, rfl⟩ := List.mem_range'.mp hi
      show 0 + 1 * j < 5 - 1
      omega
    show (retryFor body (List.range max_retries) 0 []).outcome = _ ∧
      (retryFor body (List.range max_retries) 0 []).attempts = _
    rw [hsplit, retryFor_error_segment body _ _ 0 [] herr hlt,
      retryFor_last_error body 4 (errOf 4) [] _ _ (hfail 4) (by decide)]
    exact ⟨rfl, rfl⟩

/-- A connection body that fails on the first two attempts and then
succeeds. -/
def exFlaky : Nat → Except String Unit :=
  fun i => if i < 2 then .error "conn refused" else .ok ()

/-- C3 witness: with two initial failures the runner recovers, sleeping the
fixed delay twice; with a permanently failing body it raises after exactly
`max_retries` attempts. -/
theorem interface_retry_policy_witness :
    (2 < max_retries ∧
     (∀ i, i < 2 → exFlaky i = .error "conn refused") ∧
     (∀ i, 2 ≤ i → exFlaky i = .ok ())) ∧
    ((interfaceMain exFlaky).outcome = .ok () ∧
     (interfaceMain exFlaky).sleeps = List.replicate 2 retry_delay) ∧
    ((interfaceMain (fun _ => .error "down")).outcome = .error "down" ∧
     (interfaceMain (fun _ => .error "down")).attempts = max_retries) := by
  have hf : ∀ i, i < 2 → exFlaky i = .error "conn refused" := by
    intro i hi
    simp [exFlaky, hi]
  have hs : ∀ i, 2 ≤ i → exFlaky i = .ok () := by
    intro i hi
    simp [exFlaky, Nat.not_lt.mpr hi]
  refine ⟨⟨by decide, hf, hs⟩, ?_, ?_⟩
  · exact interface_retry_policy.1 2 exFlaky (fun _ => "conn refused")
      (by decide) hf hs
  · exact interface_retry_policy.2 (fun _ => .error "down") (fun _ => "down")
      (fun _ => rfl)

/-! ## Claims C4, C5: the unbounded run loop -/

/-- C4 counterexample (to the claim as stated): the `except`-branch backoff
is `5` seconds while the success-path sleep is `1` second, so the backoff is
not shorter than the success-path sleep — at the concrete failing invocation
`"boom"` the loop sleeps `error_backoff = 5`, while a successful invocation
sleeps `success_sleep = 1`, and `error_backoff < success_sleep` is false. -/
theorem run_loop_backoff_not_shorter :
    loopBody (.error "boom") ⟨0, [], []⟩ =
      .next ⟨1, [error_backoff], ["boom"]⟩ ∧
    loopBody (.ok ()) ⟨0, [], []⟩ = .next ⟨1, [success_sleep], []⟩ ∧
    ¬ error_backoff < success_sleep :=
  ⟨rfl, rfl, by decide⟩

/-- C4 (amended): on any exception during an invocation the loop logs the
error, sleeps the fixed backoff interval — which is longer, not shorter,
than the success-path sleep — and continues with the next iteration; a
single failed invocation never exits the loop. -/
theorem run_loop_error_backoff (e : String) (s : LoopState) :
    loopBody (.error e) s =
      .next ⟨s.iteration + 1, s.sleeps ++ [error_backoff],
        s.errorsLogged ++ [e]⟩ ∧
    success_sleep < error_backoff :=
  ⟨rfl, by decide⟩

/-- C5 counterexample (to the claim as stated): the runner of
`src/0-langchain-interface.py` does return normally — with a body that
completes on every attempt, `main()` falls off the end of its `for` loop
after `max_retries` successful invocations and returns, rather than looping
forever. -/
theorem interface_runner_returns_normally :
    interfaceMain (fun _ => .ok ()) = ⟨.ok (), max_retries, []⟩ := rfl

/-- C5 (amended, scoped to `src/main.py`): the run loop of the main variant
never exits: after any number of iterations the state is `.next` (never an
exit), the iteration counter equals the number of invocations, one sleep is
performed per iteration, and when every invocation succeeds each sleep is
the short fixed `success_sleep`. -/
theorem main_loop_never_exits (invokes : Nat → Except String Unit) (n : Nat) :
    ∃ s : LoopState, runLoop invokes n = .next s ∧ s.iteration = n ∧
      s.sleeps.length = n ∧
      ((∀ i, invokes i = .ok ()) →
        s.sleeps = List.replicate n success_sleep) := by
  induction n with
  | zero => exact ⟨⟨0, [], []⟩, rfl, rfl, rfl, fun _ => rfl⟩
  | succ n ih =>
    obtain ⟨s, hs, hit, hlen, hok⟩ := ih
    cases hinv : invokes n with
    | ok u =>
      cases u
      refine ⟨⟨s.iteration + 1, s.sleeps ++ [success_sleep], s.errorsLogged⟩,
        ?_, by simp [hit], by simp [hlen], ?_⟩
      · simp [runLoop, hs, hinv, loopBody]
      · intro hall
        simp only [List.replicate_succ']
        rw [hok hall]
    | error e =>
      refine ⟨⟨s.iteration + 1, s.sleeps ++ [error_backoff],
          s.errorsLogged ++ [e]⟩,
        ?_, by simp [hit], by simp [hlen], ?_⟩
      · simp [runLoop, hs, hinv, loopBody]
      · intro hall
        exact absurd (hall n) (by simp [hinv])

/-- C5 witness: after three all-successful iterations the loop is still
running, has counted three iterations and slept the short interval three
times. -/
theorem main_loop_never_exits_witness :
    ∃ s : LoopState, runLoop (fun _ => .ok ()) 3 = .next s ∧
      s.iteration = 3 ∧ s.sleeps = List.replicate 3 success_sleep := by
  obtain ⟨s, hs, hit, _, hok⟩ := main_loop_never_exits (fun _ => .ok ()) 3
  exact ⟨s, hs, hit, hok (fun _ => rfl)⟩

/-! ## Claim C6: configuration loading -/

theorem mem_missingRequired (c : Config) (name : String) :
    name ∈ missingRequired c ↔
      ∃ v, (name, v) ∈ c.requiredPairs ∧ truthyOpt v = false := by
  simp only [missingRequired, List.mem_map, List.mem_filter]
  constructor
  · rintro ⟨⟨n, v⟩, ⟨hmem, hv⟩, rfl⟩
    exact ⟨v, hmem, by simpa using hv⟩
  · rintro ⟨v, hmem, hv⟩
    exact ⟨(name, v), ⟨hmem, by simpa using hv⟩, rfl⟩

/-- C6 counterexample (to the claim as stated): with all five required
variables present but the optional `MODEL_TEMPERATURE` set to a non-numeric
string, `load_config` does not return the configuration — the `float()`
conversion raises before the required-field check is even reached. -/
def envBadTemp : String → Option String := fun k =>
  if k = "CORAL_SSE_URL" then some "http://localhost:5555/sse"
  else if k = "CORAL_AGENT_ID" then some "interface_agent"
  else if k = "MODEL_NAME" then some "gpt-4.1-mini"
  else if k = "MODEL_PROVIDER" then some "openai"
  else if k = "API_KEY" then some "sk-test"
  else if k = "MODEL_TEMPERATURE" then some "abc"
  else none

/-- C6 counterexample: every required value is present and non-empty, yet
`load_config` raises the float-conversion error instead of returning. -/
theorem load_config_malformed_temperature :
    (truthyOpt (envBadTemp "CORAL_SSE_URL") = true ∧
     truthyOpt (envBadTemp "CORAL_AGENT_ID") = true ∧
     truthyOpt (envBadTemp "MODEL_NAME") = true ∧
     truthyOpt (envBadTemp "MODEL_PROVIDER") = true ∧
     truthyOpt (envBadTemp "API_KEY") = true) ∧
    load_config envBadTemp =
      .error "could not convert string to float: abc" := by
  exact ⟨by decide, by decide⟩

/-- C6 (amended): provided the optional numeric variables
`MODEL_TEMPERATURE` and `MODEL_TOKEN` are absent or well-formed — otherwise
their conversion error pre-empts everything — startup validation is as the
claim states: if any required value (server URL, agent id, model name,
model provider, API key) is unset or empty, `load_config` raises an error
whose message lists the name of every missing field and nothing else; if
all five are present and non-empty it returns the configuration. -/
theorem load_config_missing_fields (env : String → Option String)
    (htemp : ∀ s, env "MODEL_TEMPERATURE" = some s → (pyFloat? s).isSome = true)
    (htok : ∀ s, env "MODEL_TOKEN" = some s → (pyInt? s).isSome = true) :
    ((truthyOpt (env "CORAL_SSE_URL") = false ∨
      truthyOpt (env "CORAL_AGENT_ID") = false ∨
      truthyOpt (env "MODEL_NAME") = false ∨
      truthyOpt (env "MODEL_PROVIDER") = false ∨
      truthyOpt (env "API_KEY") = false) →
      ∃ L, load_config env = .error (missingMessage L) ∧ L ≠ [] ∧
        ("coral_sse_url" ∈ L ↔ truthyOpt (env "CORAL_SSE_URL") = false) ∧
        ("agent_id" ∈ L ↔ truthyOpt (env "CORAL_AGENT_ID") = false) ∧
        ("model_name" ∈ L ↔ truthyOpt (env "MODEL_NAME") = false) ∧
        ("model_provider" ∈ L ↔ truthyOpt (env "MODEL_PROVIDER") = false) ∧
        ("api_key" ∈ L ↔ truthyOpt (env "API_KEY") = false)) ∧
    ((truthyOpt (env "CORAL_SSE_URL") = true ∧
      truthyOpt (env "CORAL_AGENT_ID") = true ∧
      truthyOpt (env "MODEL_NAME") = true ∧
      truthyOpt (env "MODEL_PROVIDER") = true ∧
      truthyOpt (env "API_KEY") = true) →
      ∃ cfg, load_config env = .ok cfg) := by
  obtain ⟨temp, htempEq⟩ : ∃ q, tempValue env = .ok q := by
    cases h : env "MODEL_TEMPERATURE" with
    | none => exact ⟨(7 : Rat) / 10, by simp [tempValue, h]⟩
    | some s =>
      obtain ⟨q, hq⟩ := Option.isSome_iff_exists.mp (htemp s h)
      exact ⟨q, by simp [tempValue, h, hq]⟩
  obtain ⟨tok, htokEq⟩ : ∃ n, tokenValue env = .ok n := by
    cases h : env "MODEL_TOKEN" with
    | none => exact ⟨2048, by simp [tokenValue, h]⟩
    | some s =>
      obtain ⟨n, hn⟩ := Option.isSome_iff_exists.mp (htok s h)
      exact ⟨n, by simp [tokenValue, h, hn]⟩
  have hload : load_config env =
      (if missingRequired (configOf env temp tok) = []
       then .ok (configOf env temp tok)
       else .error (missingMessage (missingRequired (configOf env temp tok)))) := by
    simp [load_config, htempEq, htokEq]
  have h1 : "coral_sse_url" ∈ missingRequired (configOf env temp tok) ↔
      truthyOpt (env "CORAL_SSE_URL") = false := by
    rw [mem_missingRequired]
    simp [Config.requiredPairs, configOf]
  have h2 : "agent_id" ∈ missingRequired (configOf env temp tok) ↔
      truthyOpt (env "CORAL_AGENT_ID") = false := by
    rw [mem_missingRequired]
    simp [Config.requiredPairs, configOf]
  have h3 : "model_name" ∈ missingRequired (configOf env temp tok) ↔
      truthyOpt (env "MODEL_NAME") = false := by
    rw [mem_missingRequired]
    simp [Config.requiredPairs, configOf]
  have h4 : "model_provider" ∈ missingRequired (configOf env temp tok) ↔
      truthyOpt (env "MODEL_PROVIDER") = false := by
    rw [mem_missingRequired]
    simp [Config.requiredPairs, configOf]
  have h5 : "api_key" ∈ missingRequired (configOf env temp tok) ↔
      truthyOpt (env "API_KEY") = false := by
    rw [mem_missingRequired]
    simp [Config.requiredPairs, configOf]
  constructor
  · intro hmiss
    have hne : missingRequired (configOf env temp tok) ≠ [] := by
      rcases hmiss with h | h | h | h | h
      · exact List.ne_nil_of_mem (h1.mpr h)
      · exact List.ne_nil_of_mem (h2.mpr h)
      · exact List.ne_nil_of_mem (h3.mpr h)
      · exact List.ne_nil_of_mem (h4.mpr h)
      · exact List.ne_nil_of_mem (h5.mpr h)
    refine ⟨missingRequired (configOf env temp tok), ?_, hne, h1, h2, h3, h4, h5⟩
    rw [hload, if_neg hne]
  · rintro ⟨t1, t2, t3, t4, t5⟩
    have hnil : missingRequired (configOf env temp tok) = [] := by
      simp [missingRequired, Config.requiredPairs, configOf,
        List.filter_eq_nil_iff, t1, t2, t3, t4, t5]
    exact ⟨configOf env temp tok, by rw [hload, if_pos hnil]⟩

/-- An environment with only `MODEL_NAME` and `MODEL_PROVIDER` set. -/
def envPartial : String → Option String := fun k =>
  if k = "MODEL_NAME" then some "gpt-4.1-mini"
  else if k = "MODEL_PROVIDER" then some "openai"
  else none

/-- C6 witness: with three of the five required variables missing,
`load_config` raises the missing-variables error and the reported list
contains exactly the three missing field names. -/
theorem load_config_missing_fields_witness :
    ∃ L, load_config envPartial = .error (missingMessage L) ∧ L ≠ [] ∧
      "coral_sse_url" ∈ L ∧ "agent_id" ∈ L ∧ "api_key" ∈ L ∧
      "model_name" ∉ L ∧ "model_provider" ∉ L := by
  have htemp : ∀ s, envPartial "MODEL_TEMPERATURE" = some s →
      (pyFloat? s).isSome = true := by
    intro s h
    simp [envPartial] at h
  have htok : ∀ s, envPartial "MODEL_TOKEN" = some s →
      (pyInt? s).isSome = true := by
    intro s h
    simp [envPartial] at h
  obtain ⟨L, hL, hne, c1, c2, c3, c4, c5⟩ :=
    (load_config_missing_fields envPartial htemp htok).1 (by left; decide)
  exact ⟨L, hL, hne, c1.mpr (by decide), c2.mpr (by decide), c5.mpr (by decide),
    fun hm => absurd (c3.mp hm) (by decide),
    fun hm => absurd (c4.mp hm) (by decide)⟩

end CoralInterface
